import Mathlib

/-!
Verification development for the `wowauto` sequence-execution engine.

The definitions below are a shallow embedding of the Python sources under
`src/wowauto/`:

* `sequence_loader.py`  — `SequenceLoader` (store of named sequences),
* `sequence_runner.py`  — `SequenceRunner` (one-shot and periodic runs),
* `window_detector.py`  — `WindowDetector` (foreground-window gate),
* `key_parser.py`       — `parse_key` / `parse_button`,
* `action_executor.py`  — `ActionExecutor` (key/mouse/wait/repeat actions).

Conventions of the embedding:

* JSON documents are modelled by the inductive type `JVal`; Python `dict`s
  are association lists that keep first-insertion order, with `dict.update`
  semantics given by `dictUpdate`.
* Machine floats of the Python code are modelled as rationals (`ℚ`); none of
  the verified properties depends on rounding behaviour.
* Randomness is modelled by explicit tapes: `tapeInts` holds the successive
  values returned by `random.randint` calls and `tapeUnifs` the successive
  values returned by `random.uniform` calls, in program order.  Range facts
  (for example that `random.randint(1, 100)` yields a value in `[1, 100]`)
  are taken as hypotheses where a theorem needs them.
* Side effects (`asyncio.sleep`, pynput key/button events, cursor moves,
  dry-run prints) are recorded in an event trace.
* Exceptions are modelled with `Except`; an exception leaves the caller's
  state unchanged, matching the Python code where every `raise` happens
  before any mutation.
-/

namespace WowAuto

/-- JSON-compatible values, as produced by `json.load`. -/
inductive JVal where
  | jnull
  | jbool (b : Bool)
  | jnum (q : ℚ)
  | jstr (s : String)
  | jlist (xs : List JVal)
  | jobj (entries : List (String × JVal))
deriving Repr

/-! ### Python dict semantics (insertion ordered) -/

/-- `d[k] = v` on an insertion-ordered dict: overwrite in place if the key
exists, else append. -/
def dictInsert (d : List (String × JVal)) (k : String) (v : JVal) :
    List (String × JVal) :=
  if d.any (fun p => p.1 == k) then
    d.map (fun p => if p.1 == k then (p.1, v) else p)
  else
    d ++ [(k, v)]

/-- Python `d.update(src)`: insert every entry of `src` in order. -/
def dictUpdate (d src : List (String × JVal)) : List (String × JVal) :=
  src.foldl (fun acc p => dictInsert acc p.1 p.2) d

/-! ### SequenceLoader (`sequence_loader.py`) -/

/-- Errors surfaced by the loader. `unsupportedFormat` is the
`ValueError("Unsupported JSON top-level: ...")` of `load_file`;
`notFound` is the `KeyError` of `get_sequence`. -/
inductive LoadErr where
  | unsupportedFormat
  | notFound
deriving DecidableEq, Repr

/-- `SequenceLoader.load_file`, after the file has been read and parsed into
a `JVal` (file IO is not modelled).  Returns the list produced by
`list(self.data.keys())` together with the updated store. -/
def load_file (data : List (String × JVal)) (payload : JVal) :
    Except LoadErr (List String × List (String × JVal)) :=
  match payload with
  | .jobj entries =>
    match List.lookup "sequences" entries with
    | some (.jobj inner) =>
      let d := dictUpdate data inner
      .ok (d.map Prod.fst, d)
    | _ =>
      let d := dictUpdate data entries
      .ok (d.map Prod.fst, d)
  | _ => .error .unsupportedFormat

/-- `SequenceLoader.list_sequences`. -/
def list_sequences (data : List (String × JVal)) : List String :=
  data.map Prod.fst

/-- `SequenceLoader.get_sequence`. -/
def get_sequence (data : List (String × JVal)) (name : String) :
    Except LoadErr JVal :=
  match List.lookup name data with
  | some v => .ok v
  | none => .error .notFound

/-- Spec-side helper: the entries a well-formed document defines (the inner
mapping when the document carries a `"sequences"` mapping, else its own
entries); `none` for a non-mapping top level. -/
def docEntries (payload : JVal) : Option (List (String × JVal)) :=
  match payload with
  | .jobj entries =>
    match List.lookup "sequences" entries with
    | some (.jobj inner) => some inner
    | _ => some entries
  | _ => none

/-! ### WindowDetector (`window_detector.py`) -/

structure WindowDetector where
  target_window_titles : List String
  check_interval : ℚ
deriving Repr

/-- `WindowDetector.__init__`.  Python evaluates
`target_window_titles or ["World of Warcraft"]`, so both `None` and an
empty list fall back to the default. -/
def WindowDetector.make (titles : Option (List String)) (ci : ℚ) :
    WindowDetector :=
  { target_window_titles :=
      match titles with
      | none => ["World of Warcraft"]
      | some l => if l.isEmpty then ["World of Warcraft"] else l
    check_interval := ci }

/-- `WindowDetector.is_target_window_active`: the body is
`return True`; the original title comparison is commented out in the
source. -/
def WindowDetector.is_target_window_active (_ : WindowDetector) : Bool :=
  true

/-! ### SequenceRunner task bookkeeping (`sequence_runner.py`) -/

/-- Errors surfaced by `SequenceRunner.start_repeating`:
`notFound` is the `KeyError` of `get_sequence`; `invalidSequenceShape` the
`ValueError` for a bare-list sequence; `invalidInterval` the `ValueError`
for a missing/non-positive `every`; `alreadyRunning` the `RuntimeError`
for a duplicate start.  `badSequenceValue` and `badFieldValue` model the
`AttributeError`/`TypeError` Python would raise when the stored value is
neither list nor dict, or when `float()` is applied to a non-numeric
JSON value. -/
inductive RunErr where
  | notFound
  | invalidSequenceShape
  | invalidInterval
  | alreadyRunning
  | badSequenceValue
  | badFieldValue
deriving DecidableEq, Repr

/-- `float(entries.get(k, 0))` for a JSON field expected to be numeric. -/
def pyFloatField (entries : List (String × JVal)) (k : String) :
    Except RunErr ℚ :=
  match List.lookup k entries with
  | none => .ok 0
  | some (.jnum q) => .ok q
  | some _ => .error .badFieldValue

/-- The periodic task handle created by `start_repeating`: the
`asyncio.Task` running `_periodic_worker(name, every, actions)`. -/
structure TaskHandle where
  interval : ℚ
  actionsVal : JVal
deriving Repr

/-- The state of a `SequenceRunner` relevant to task management: the
loader's store and the `_tasks` dict (name → live periodic task). -/
structure RunnerState where
  data : List (String × JVal)
  tasks : List (String × TaskHandle)
deriving Repr

/-- `SequenceRunner.start_repeating`.  On success returns the new task and
the updated state (a fresh key is appended to the `_tasks` dict). -/
def start_repeating (st : RunnerState) (name : String) :
    Except RunErr (TaskHandle × RunnerState) :=
  match List.lookup name st.data with
  | none => .error .notFound
  | some (.jlist _) => .error .invalidSequenceShape
  | some (.jobj entries) =>
    match pyFloatField entries "every" with
    | .error e => .error e
    | .ok every =>
      let actionsVal := (List.lookup "actions" entries).getD (.jlist [])
      if every ≤ 0 then .error .invalidInterval
      else if st.tasks.any (fun p => p.1 == name) then .error .alreadyRunning
      else
        let t : TaskHandle := ⟨every, actionsVal⟩
        .ok (t, ⟨st.data, st.tasks ++ [(name, t)]⟩)
  | some _ => .error .badSequenceValue

/-- The runner state after a `start_repeating` call, also when it raises:
every `raise` in the Python method happens before any mutation, so a
failed call leaves the object unchanged. -/
def start_repeating_state (st : RunnerState) (name : String) : RunnerState :=
  match start_repeating st name with
  | .ok (_, st2) => st2
  | .error _ => st

/-! ### Key and button parsing (`key_parser.py`) -/

/-- Result of `parse_key`: a named `pynput.keyboard.Key` attribute, a
`KeyCode.from_vk` code, a `KeyCode.from_char` character, or the raw
argument passed through unresolved. -/
inductive KeyTok where
  | special (name : String)
  | vk (code : Nat)
  | ch (c : Char)
  | raw (s : String)
deriving DecidableEq, Repr

/-- `pynput.mouse.Button` values used by the executor. -/
inductive Btn where
  | left
  | right
  | middle
deriving DecidableEq, Repr

/-- Python `str.lower()` (the inputs of interest are ASCII): lower-case
every character of the string. -/
def pyLower (s : String) : String :=
  String.mk (s.toList.map Char.toLower)

/-- The `simple` dict of `parse_key`, in source order. -/
def simpleTable : List (String × KeyTok) :=
  [ ("shift", .special "shift")
  , ("ctrl", .special "ctrl")
  , ("control", .special "ctrl")
  , ("alt", .special "alt")
  , ("enter", .special "enter")
  , ("return", .special "enter")
  , ("space", .special "space")
  , ("tab", .special "tab")
  , ("esc", .special "esc")
  , ("escape", .special "esc")
  , ("backspace", .special "backspace")
  , ("delete", .special "delete")
  , ("left", .special "left")
  , ("right", .special "right")
  , ("up", .special "up")
  , ("down", .special "down")
  , ("leftarrow", .special "left")
  , ("left_arrow", .special "left")
  , ("arrow_left", .special "left")
  , ("rightarrow", .special "right")
  , ("right_arrow", .special "right")
  , ("arrow_right", .special "right")
  , ("uparrow", .special "up")
  , ("up_arrow", .special "up")
  , ("arrow_up", .special "up")
  , ("downarrow", .special "down")
  , ("down_arrow", .special "down")
  , ("arrow_down", .special "down")
  , ("home", .special "home")
  , ("end", .special "end")
  , ("pageup", .special "page_up")
  , ("page_up", .special "page_up")
  , ("pgup", .special "page_up")
  , ("pagedown", .special "page_down")
  , ("page_down", .special "page_down")
  , ("pgdn", .special "page_down")
  , ("insert", .special "insert")
  , ("ins", .special "insert")
  , ("printscreen", .special "print_screen")
  , ("print_screen", .special "print_screen")
  , ("prtsc", .special "print_screen")
  , ("f1", .special "f1")
  , ("f2", .special "f2")
  , ("f3", .special "f3")
  , ("f4", .special "f4")
  , ("f5", .special "f5")
  , ("f6", .special "f6")
  , ("f7", .special "f7")
  , ("f8", .special "f8")
  , ("f9", .special "f9")
  , ("f10", .special "f10")
  , ("f11", .special "f11")
  , ("f12", .special "f12")
  , ("num0", .special "num_lock")
  , ("num1", .special "num_lock")
  , ("num2", .special "num_lock")
  , ("num3", .special "num_lock")
  , ("num4", .special "num_lock")
  , ("num5", .special "num_lock")
  , ("num6", .special "num_lock")
  , ("num7", .special "num_lock")
  , ("num8", .special "num_lock")
  , ("num9", .special "num_lock")
  , ("numlock", .special "num_lock")
  , ("num_lock", .special "num_lock")
  , ("w", .ch 'w')
  , ("a", .ch 'a')
  , ("s", .ch 's')
  , ("d", .ch 'd')
  ]

/-- The `numpad_keys` dict of `parse_key`, in source order. -/
def numpadTable : List (String × KeyTok) :=
  [ ("numpad0", .vk 96)
  , ("numpad1", .vk 97)
  , ("numpad2", .vk 98)
  , ("numpad3", .vk 99)
  , ("numpad4", .vk 100)
  , ("numpad5", .vk 101)
  , ("numpad6", .vk 102)
  , ("numpad7", .vk 103)
  , ("numpad8", .vk 104)
  , ("numpad9", .vk 105)
  , ("num0", .vk 96)
  , ("num1", .vk 97)
  , ("num2", .vk 98)
  , ("num3", .vk 99)
  , ("num4", .vk 100)
  , ("num5", .vk 101)
  , ("num6", .vk 102)
  , ("num7", .vk 103)
  , ("num8", .vk 104)
  , ("num9", .vk 105)
  ]

/-- Attribute names of `pynput.keyboard.Key`, probed by the
`hasattr(Key, s)` fallback of `parse_key`.  The set is platform dependent;
the theorems below never depend on membership in it because every input
they mention is resolved by an earlier branch. -/
def pynputKeyNames : List String :=
  [ "alt", "alt_gr", "alt_l", "alt_r", "backspace", "caps_lock", "cmd"
  , "cmd_l", "cmd_r", "ctrl", "ctrl_l", "ctrl_r", "delete", "down", "end"
  , "enter", "esc", "f1", "f2", "f3", "f4", "f5", "f6", "f7", "f8", "f9"
  , "f10", "f11", "f12", "f13", "f14", "f15", "f16", "f17", "f18", "f19"
  , "f20", "home", "insert", "left", "media_next", "media_play_pause"
  , "media_previous", "media_volume_down", "media_volume_mute"
  , "media_volume_up", "menu", "num_lock", "page_down", "page_up", "pause"
  , "print_screen", "right", "scroll_lock", "shift", "shift_l", "shift_r"
  , "space", "tab", "up" ]

/-- `parse_key` of `key_parser.py` (the pynput-present branch): lower-case,
then check the `simple` dict, then `numpad_keys`, then single characters,
then `hasattr(Key, s)`, else return the raw argument. -/
def parse_key (key_str : String) : KeyTok :=
  let s := pyLower key_str
  match List.lookup s simpleTable with
  | some k => k
  | none =>
    match List.lookup s numpadTable with
    | some k => k
    | none =>
      match s.toList with
      | [c] => .ch c
      | _ =>
        if pynputKeyNames.contains s then .special s
        else .raw key_str

/-- `parse_button` of `key_parser.py`: `None` passes through, otherwise the
lower-cased name is looked up with default `Button.left`. -/
def parse_button (btn_str : Option String) : Option Btn :=
  match btn_str with
  | none => none
  | some b =>
    let m := pyLower b
    some (if m = "left" then .left
          else if m = "right" then .right
          else if m = "middle" then .middle
          else .left)

/-! ### ActionExecutor (`action_executor.py`) -/

/-- An action dict, restricted to the fields the executor reads.  Field
values of the wrong JSON type would make the Python `str`/`int`/`float`
coercions raise; the embedding carries each field at the type the executor
coerces it to. -/
inductive Action where
  | mk (type? action? key? button? : Option String)
       (x? y? clicks? count? chance? : Option Int)
       (interval? duration? seconds? every? delay? : Option ℚ)
       (actions : List Action)

def Action.type? : Action → Option String
  | .mk t _ _ _ _ _ _ _ _ _ _ _ _ _ _ => t

def Action.action? : Action → Option String
  | .mk _ a _ _ _ _ _ _ _ _ _ _ _ _ _ => a

def Action.key? : Action → Option String
  | .mk _ _ k _ _ _ _ _ _ _ _ _ _ _ _ => k

def Action.button? : Action → Option String
  | .mk _ _ _ b _ _ _ _ _ _ _ _ _ _ _ => b

def Action.x? : Action → Option Int
  | .mk _ _ _ _ x _ _ _ _ _ _ _ _ _ _ => x

def Action.y? : Action → Option Int
  | .mk _ _ _ _ _ y _ _ _ _ _ _ _ _ _ => y

def Action.clicks? : Action → Option Int
  | .mk _ _ _ _ _ _ c _ _ _ _ _ _ _ _ => c

def Action.count? : Action → Option Int
  | .mk _ _ _ _ _ _ _ c _ _ _ _ _ _ _ => c

def Action.chance? : Action → Option Int
  | .mk _ _ _ _ _ _ _ _ c _ _ _ _ _ _ => c

def Action.interval? : Action → Option ℚ
  | .mk _ _ _ _ _ _ _ _ _ i _ _ _ _ _ => i

def Action.duration? : Action → Option ℚ
  | .mk _ _ _ _ _ _ _ _ _ _ d _ _ _ _ => d

def Action.seconds? : Action → Option ℚ
  | .mk _ _ _ _ _ _ _ _ _ _ _ s _ _ _ => s

def Action.every? : Action → Option ℚ
  | .mk _ _ _ _ _ _ _ _ _ _ _ _ e _ _ => e

def Action.delay? : Action → Option ℚ
  | .mk _ _ _ _ _ _ _ _ _ _ _ _ _ d _ => d

def Action.actions : Action → List Action
  | .mk _ _ _ _ _ _ _ _ _ _ _ _ _ _ as => as

/-- Observable effects of the executor: `asyncio.sleep` calls, pynput
keyboard/mouse press and release events, cursor moves
(`self.ms.position = (x, y)`), and dry-run `print` lines (the tag names
the print site; formatted values are not modelled). -/
inductive Event where
  | sleep (secs : ℚ)
  | kbPress (k : KeyTok)
  | kbRelease (k : KeyTok)
  | msPress (b : Btn)
  | msRelease (b : Btn)
  | msMove (x y : Int)
  | logLine (tag : String)
deriving DecidableEq, Repr

/-- Executor-side state: the two random tapes, the OS cursor position
(`self.ms.position`), and the event trace accumulated so far. -/
structure ExecState where
  tapeInts : List Int
  tapeUnifs : List ℚ
  mousePos : Int × Int
  trace : List Event
deriving DecidableEq, Repr

/-- Consume the next `random.randint` result (the tape is a modelling
device; an exhausted tape yields 0). -/
def nextInt (s : ExecState) : Int × ExecState :=
  (s.tapeInts.headD 0, { s with tapeInts := s.tapeInts.tail })

/-- Consume the next `random.uniform` result. -/
def nextUnif (s : ExecState) : ℚ × ExecState :=
  (s.tapeUnifs.headD 0, { s with tapeUnifs := s.tapeUnifs.tail })

/-- Append an observable event to the trace. -/
def push (e : Event) (s : ExecState) : ExecState :=
  { s with trace := s.trace ++ [e] }

/-- Move the OS cursor: `self.ms.position = (x, y)` both emits a cursor
move and changes the position subsequent reads observe. -/
def setPos (x y : Int) (s : ExecState) : ExecState :=
  { push (.msMove x y) s with mousePos := (x, y) }

/-- Errors raised by the executor.  `fuelOut` is a modelling device marking
a `repeat` loop that runs indefinitely; `gateSuspended` marks the
window-gate polling loop of `_run_actions_once` (unreachable, since the
gate constantly reports active). -/
inductive ExecErr where
  | unsupportedAction (t : String)
  | unknownKeyAction (s : String)
  | unknownMouseAction (s : String)
  | fuelOut
  | gateSuspended
deriving DecidableEq, Repr

/-- `ActionExecutor._check_chance`: `True` when `chance` is absent, `False`
when `chance <= 0`, `True` when `chance >= 100`, otherwise one
`random.randint(1, 100)` draw compared against `chance`. -/
def check_chance (chance : Option Int) (s : ExecState) : Bool × ExecState :=
  match chance with
  | none => (true, s)
  | some c =>
    if c ≤ 0 then (false, s)
    else if 100 ≤ c then (true, s)
    else
      let (d, s1) := nextInt s
      (decide (d ≤ c), s1)

/-- `ActionExecutor._execute_wait`: sleep `seconds * uniform(0.9, 1.1)`
(the jittered value is computed in both modes; dry-run only prints). -/
def executeWait (dry : Bool) (a : Action) (s : ExecState) :
    Except ExecErr ExecState :=
  let secs := (a.seconds?).getD 0
  let (u, s1) := nextUnif s
  .ok (if dry then push (.logLine "wait") s1 else push (.sleep (secs * u)) s1)

/-- `ActionExecutor._execute_superwait`: sleep the exact `seconds`. -/
def executeSuperwait (dry : Bool) (a : Action) (s : ExecState) :
    Except ExecErr ExecState :=
  let secs := (a.seconds?).getD 0
  .ok (if dry then push (.logLine "superwait") s else push (.sleep secs) s)

/-- `ActionExecutor._execute_key`.  Note: `pre_delay` is drawn from
`uniform(0.05, 0.09)` unconditionally, but the method never sleeps it; in
executing mode the first effect is the key event itself.  With `key`
absent, Python evaluates `str(None).lower() = "none"` inside `parse_key`
and falls through to the raw return. -/
def executeKey (dry : Bool) (a : Action) (s : ExecState) :
    Except ExecErr ExecState :=
  let action_type := pyLower ((a.action?).getD "press")
  let key := match a.key? with
    | some k => parse_key k
    | none => parse_key "None"
  let (_pre, s1) := nextUnif s
  if dry then .ok (push (.logLine "key") s1)
  else if action_type = "press" then
    let s2 := push (.kbPress key) s1
    match a.duration? with
    | some d => .ok (push (.kbRelease key) (push (.sleep d) s2))
    | none =>
      let (u, s3) := nextUnif s2
      .ok (push (.kbRelease key) (push (.sleep u) s3))
  else if action_type = "down" then .ok (push (.kbPress key) s1)
  else if action_type = "up" then .ok (push (.kbRelease key) s1)
  else if action_type = "hold" then
    -- `duration` absent: the fallback re-reads the same `duration` field
    -- with default 0, so the hold time degenerates to 0 (no jitter draw).
    let d := (a.duration?).getD 0
    .ok (push (.kbRelease key) (push (.sleep d) (push (.kbPress key) s1)))
  else .error (.unknownKeyAction action_type)

/-- Python `int()` truncation toward zero on a rational. -/
def pyTrunc (q : ℚ) : Int :=
  if 0 ≤ q then q.floor else -((-q).floor)

/-- One Bézier sample of `_smooth_move_mouse`:
`int((1-t)^2*from + 2*(1-t)*t*mid + t^2*to)` with `t = i/steps`. -/
def bez (fromv : Int) (mid : ℚ) (tov : Int) (i steps : Nat) : Int :=
  let t : ℚ := (i : ℚ) / (steps : ℚ)
  pyTrunc ((1 - t) ^ 2 * (fromv : ℚ) + 2 * (1 - t) * t * mid
            + t ^ 2 * (tov : ℚ))

/-- `ActionExecutor._smooth_move_mouse`.  The step count uses the real
square root of the squared distance; `int(distance / 10)` equals
`Nat.sqrt d2 / 10` because truncating `x / 10` commutes with truncating
`x` for non-negative `x`.  Each loop iteration sets the cursor and, except
after the last sample, sleeps `uniform(0.001, 0.003)`. -/
def smoothMove (fx fy tx ty : Int) (s : ExecState) : ExecState :=
  let d2 : Nat := ((tx - fx) ^ 2 + (ty - fy) ^ 2).toNat
  let steps := max 10 (Nat.sqrt d2 / 10)
  let (mx, s1) := nextInt s
  let (my, s2) := nextInt s1
  let midx : ℚ := ((fx : ℚ) + (tx : ℚ)) / 2 + (mx : ℚ)
  let midy : ℚ := ((fy : ℚ) + (ty : ℚ)) / 2 + (my : ℚ)
  (List.range (steps + 1)).foldl
    (fun st i =>
      let x := bez fx midx tx i steps
      let y := bez fy midy ty i steps
      let st1 := setPos x y st
      if i < steps then
        let (u, st2) := nextUnif st1
        push (.sleep u) st2
      else st1)
    s2

/-- The `for i in range(clicks)` loop of `_execute_mouse`'s click branch,
recursing on the number of clicks still to perform (`k = 0` marks the last
iteration, which has no between-click wait). -/
def clickLoop (btn : Btn) (dur? : Option ℚ) (interval : ℚ) :
    Nat → ExecState → ExecState
  | 0, s => s
  | k + 1, s =>
    let s1 := push (.msPress btn) s
    let s2 :=
      match dur? with
      | some d => push (.sleep d) s1
      | none =>
        let (u, s') := nextUnif s1
        push (.sleep u) s'
    let s3 := push (.msRelease btn) s2
    if k = 0 then s3
    else if interval ≠ 0 then
      let (u, s4) := nextUnif s3
      clickLoop btn dur? interval k (push (.sleep (interval * u)) s4)
    else
      let (u, s4) := nextUnif s3
      clickLoop btn dur? interval k (push (.sleep u) s4)

/-- The button an action's mouse dispatch uses:
`parse_button(action.get("button", "left"))`.  The argument is always a
string because the call site supplies the default `"left"`, so the
`None` branch of `parse_button` cannot fire. -/
def mouseBtn (a : Action) : Btn :=
  (parse_button (some ((a.button?).getD "left"))).getD .left

/-- `ActionExecutor._execute_mouse`.  In executing mode: when both `x` and
`y` are present, each axis is perturbed by an independent
`randint(-2, 2)` offset and the cursor is moved along the Bézier path only
when the perturbed target differs from the current position; a settle
sleep of `uniform(0.02, 0.05)` follows only when a move happened; then the
sub-action dispatches. -/
def executeMouse (dry : Bool) (a : Action) (s : ExecState) :
    Except ExecErr ExecState :=
  let action_type := pyLower ((a.action?).getD "click")
  let btn := mouseBtn a
  let clicks := (a.clicks?).getD 1
  let interval := (a.interval?).getD 0
  if dry then .ok (push (.logLine "mouse") s)
  else
    let (moved, s1) :=
      match a.x?, a.y? with
      | some x, some y =>
        let (ox, sa) := nextInt s
        let (oy, sb) := nextInt sa
        let tx := x + ox
        let ty := y + oy
        if sb.mousePos ≠ (tx, ty) then
          (true, smoothMove sb.mousePos.1 sb.mousePos.2 tx ty sb)
        else (false, sb)
      | _, _ => (false, s)
    let s2 :=
      if moved then
        let (u, s') := nextUnif s1
        push (.sleep u) s'
      else s1
    if action_type = "click" then
      .ok (clickLoop btn a.duration? interval clicks.toNat s2)
    else if action_type = "down" then .ok (push (.msPress btn) s2)
    else if action_type = "up" then .ok (push (.msRelease btn) s2)
    else if action_type = "hold" then
      let (d, s3) :=
        match a.duration? with
        | some d => (d, s2)
        | none =>
          -- fallback re-reads the same absent field (0) and jitters it
          let (u, s') := nextUnif s2
          (0 * u, s')
      .ok (push (.msRelease btn) (push (.sleep d) (push (.msPress btn) s3)))
    else .error (.unknownMouseAction action_type)

mutual
/-- Size of an action term, for termination of the interpreter. -/
def actionSize : Action → Nat
  | .mk _ _ _ _ _ _ _ _ _ _ _ _ _ _ as => 2 + actionListSize as
/-- Total size of a list of actions. -/
def actionListSize : List Action → Nat
  | [] => 0
  | a :: as => actionSize a + actionListSize as
end


mutual

/-- `ActionExecutor.execute_action`: the chance gate (skipping prints only
in dry-run mode), then dispatch plus the trailing delay handling. -/
def executeAction (dry : Bool) (fuel : Nat) (a : Action) (s : ExecState) :
    Except ExecErr ExecState :=
  match check_chance a.chance? s with
  | (false, s1) => .ok (if dry then push (.logLine "skip-chance") s1 else s1)
  | (true, s1) => executeBody dry fuel a s1
termination_by (fuel, actionSize a, 1, 4)

/-- The body of `execute_action` once the chance gate has passed: dispatch
on `type` (default `"key"`), then the per-action `delay` block.  The
`delay * uniform(1.0, 1.1)` value is computed whenever `delay` is truthy,
but the method only prints it in dry-run mode — executing mode performs
no sleep here. -/
def executeBody (dry : Bool) (fuel : Nat) (a : Action) (s : ExecState) :
    Except ExecErr ExecState :=
  let atype := pyLower ((a.type?).getD "key")
  let dispatched : Except ExecErr ExecState :=
    if atype = "wait" then executeWait dry a s
    else if atype = "superwait" then executeSuperwait dry a s
    else if atype = "key" then executeKey dry a s
    else if atype = "mouse" then executeMouse dry a s
    else if atype = "repeat" then execute_repeat dry fuel a s
    else if dry then .ok (push (.logLine "unknown-type") s)
    else .error (.unsupportedAction atype)
  match dispatched with
  | .error e => .error e
  | .ok s2 =>
    let delay := (a.delay?).getD 0
    if delay ≠ 0 then
      let (_, s3) := nextUnif s2
      .ok (if dry then push (.logLine "delay") s3 else s3)
    else .ok s2
termination_by (fuel, actionSize a, 1, 3)

/-- `ActionExecutor._execute_repeat`: read `every` (default 0), `count`
and the nested list, then run the while loop.  `int(count)` with a
non-positive value gives a loop the `while i < runs` guard exits at once,
so the iteration count handed to the bounded loop is `count.toNat`; an
absent `count` runs the unbounded loop, whose eventual `fuelOut` result
is a modelling marker for non-termination. -/
def execute_repeat (dry : Bool) (fuel : Nat) (a : Action) (s : ExecState) :
    Except ExecErr ExecState :=
  match a.count? with
  | some n =>
    repeatCount dry fuel a.actions ((a.every?).getD 0) n.toNat s
  | none =>
    repeatNone dry fuel a.actions ((a.every?).getD 0) fuel s
termination_by (fuel, actionSize a, 1, 2)
decreasing_by
  all_goals refine Prod.Lex.right _ (Prod.Lex.left _ _ ?_)
  all_goals cases a
  all_goals simp only [actionSize, Action.actions]
  all_goals omega

/-- The `while i < runs` instance of `_execute_repeat`'s loop (`count`
given): run the inner list, then either stop (`every <= 0`) or sleep
`every * uniform(0.9, 1.1)` and iterate with one fewer remaining pass. -/
def repeatCount (dry : Bool) (fuel : Nat) (inner : List Action)
    (every : ℚ) (k : Nat) (s : ExecState) : Except ExecErr ExecState :=
  match k with
  | 0 => .ok s
  | k1 + 1 =>
    match executeList dry fuel inner s with
    | .error e => .error e
    | .ok s1 =>
      if every ≤ 0 then .ok s1
      else
        let (u, s2) := nextUnif s1
        repeatCount dry fuel inner every k1 (push (.sleep (every * u)) s2)
termination_by (fuel, actionListSize inner + 1, k, 1)
decreasing_by
  all_goals
    first
      | (refine Prod.Lex.right _ (Prod.Lex.right _ (Prod.Lex.left _ _ ?_))
         omega)

/-- The `while runs is None` instance of `_execute_repeat`'s loop
(`count` absent): run the inner list, then either stop (`every <= 0`) or
sleep the jittered interval and iterate; `lb` is the loop budget of the
fuel model and `fuelOut` marks the loop running on indefinitely. -/
def repeatNone (dry : Bool) (fuel : Nat) (inner : List Action)
    (every : ℚ) (lb : Nat) (s : ExecState) : Except ExecErr ExecState :=
  match lb with
  | 0 =>
    match executeList dry fuel inner s with
    | .error e => .error e
    | .ok s1 =>
      if every ≤ 0 then .ok s1
      else
        let (_, _) := nextUnif s1
        .error .fuelOut
  | l + 1 =>
    match executeList dry fuel inner s with
    | .error e => .error e
    | .ok s1 =>
      if every ≤ 0 then .ok s1
      else
        let (u, s2) := nextUnif s1
        repeatNone dry fuel inner every l (push (.sleep (every * u)) s2)
termination_by (fuel, actionListSize inner + 1, lb + 1, 1)
decreasing_by
  all_goals
    first
      | (refine Prod.Lex.right _ (Prod.Lex.right _ (Prod.Lex.left _ _ ?_))
         omega)

/-- Sequential execution of an action list (the `for inner_action in inner`
loop of `_execute_repeat`); an exception aborts the remainder. -/
def executeList (dry : Bool) (fuel : Nat) (acts : List Action)
    (s : ExecState) : Except ExecErr ExecState :=
  match acts with
  | [] => .ok s
  | a :: rest =>
    match executeAction dry fuel a s with
    | .error e => .error e
    | .ok s1 => executeList dry fuel rest s1
termination_by (fuel, actionListSize acts + 1, 0, 0)
decreasing_by
  all_goals simp_wf
  all_goals refine Prod.Lex.right _ (Prod.Lex.left _ _ ?_)
  · simp only [actionListSize]
    omega
  · simp only [actionListSize]
    cases a
    simp only [actionSize]
    omega

end

/-- `SequenceRunner._run_actions_once`: before each action, when not in
dry-run mode and the window gate reports inactive, the sequence polls the
gate until it reports active again.  The polling loop is represented by
the `gateSuspended` marker; it is unreachable because
`is_target_window_active` constantly returns `True`. -/
def run_actions_once (dry : Bool) (fuel : Nat) (wd : WindowDetector)
    (acts : List Action) (s : ExecState) : Except ExecErr ExecState :=
  match acts with
  | [] => .ok s
  | a :: rest =>
    if !dry && !wd.is_target_window_active then .error .gateSuspended
    else
      match executeAction dry fuel a s with
      | .error e => .error e
      | .ok s1 => run_actions_once dry fuel wd rest s1

/-- One iteration of `SequenceRunner._periodic_worker`: run the action
list when dry-run or the gate reports active (else poll the gate —
again represented by the `gateSuspended` marker), then sleep
`interval * uniform(0.9, 1.1)`. -/
def periodic_worker_iter (dry : Bool) (fuel : Nat) (wd : WindowDetector)
    (interval : ℚ) (acts : List Action) (s : ExecState) :
    Except ExecErr ExecState :=
  match
    (if dry || wd.is_target_window_active
     then run_actions_once dry fuel wd acts s
     else .error .gateSuspended) with
  | .error e => .error e
  | .ok s1 =>
    let (u, s2) := nextUnif s1
    .ok (push (.sleep (interval * u)) s2)

/-- Spec-side description of a bounded periodic repeat: execute the inner
action list synchronously `k` times, sleeping `every * uniform(0.9, 1.1)`
after each execution of the list. -/
def iterBlock (dry : Bool) (fuel : Nat) (inner : List Action) (every : ℚ) :
    Nat → ExecState → Except ExecErr ExecState
  | 0, s => .ok s
  | k + 1, s =>
    match executeList dry fuel inner s with
    | .error e => .error e
    | .ok s1 =>
      let (u, s2) := nextUnif s1
      iterBlock dry fuel inner every k (push (.sleep (every * u)) s2)

/-- Spec-side description of the chance gate of claim C2: absent chance
always runs, `chance ≤ 0` never, `chance ≥ 100` always, otherwise one
draw `d` (uniform over `[1, 100]`) runs the action exactly when
`d ≤ chance`. -/
def gatePasses (chance : Option Int) (draw : Int) : Bool :=
  match chance with
  | none => true
  | some c =>
    if c ≤ 0 then false
    else if 100 ≤ c then true
    else decide (draw ≤ c)

/-- The state produced by `execute_action` when the chance gate skips the
action: unchanged, except that dry-run mode prints a skip line. -/
def skipState (dry : Bool) (s : ExecState) : ExecState :=
  if dry then push (.logLine "skip-chance") s else s

/-- Consume one `randint` draw without observable effect. -/
def consumeInt (s : ExecState) : ExecState :=
  { s with tapeInts := s.tapeInts.tail }

/-- Is an event a cursor move (one interpolation step of the movement
phase)? -/
def isMoveEv : Event → Bool
  | .msMove _ _ => true
  | _ => false

/-- Is an event a mouse-button press? -/
def isPressEv : Event → Bool
  | .msPress _ => true
  | _ => false

/-- Is an event a mouse-button release? -/
def isReleaseEv : Event → Bool
  | .msRelease _ => true
  | _ => false

instance {ε α : Type} [DecidableEq ε] [DecidableEq α] :
    DecidableEq (Except ε α) := fun a b =>
  match a, b with
  | .error e, .error f => decidable_of_iff (e = f) (by simp)
  | .error _, .ok _ => isFalse (by simp)
  | .ok _, .error _ => isFalse (by simp)
  | .ok x, .ok y => decidable_of_iff (x = y) (by simp)

/-! ## Theorems -/

/-- Helper: since the window gate constantly reports active, running a
list of actions through `_run_actions_once` is plain sequential
execution, for every detector configuration. -/
theorem run_actions_once_eq_executeList (dry : Bool) (fuel : Nat)
    (wd : WindowDetector) (acts : List Action) (s : ExecState) :
    run_actions_once dry fuel wd acts s = executeList dry fuel acts s := by
  induction acts generalizing s with
  | nil => simp [run_actions_once, executeList]
  | cons a rest ih =>
    rw [run_actions_once]
    simp only [WindowDetector.is_target_window_active, Bool.not_true,
      Bool.and_false, Bool.false_eq_true, if_false]
    rw [executeList]
    cases h : executeAction dry fuel a s with
    | error e => rfl
    | ok s1 => exact ih s1

/-- Helper: one periodic-worker iteration is ungated sequential execution
followed by the jittered interval sleep, for every detector
configuration. -/
theorem periodic_worker_iter_eq (dry : Bool) (fuel : Nat)
    (wd : WindowDetector) (interval : ℚ) (acts : List Action)
    (s : ExecState) :
    periodic_worker_iter dry fuel wd interval acts s =
      match executeList dry fuel acts s with
      | .error e => .error e
      | .ok s1 =>
        let (u, s2) := nextUnif s1
        .ok (push (.sleep (interval * u)) s2) := by
  unfold periodic_worker_iter
  simp [WindowDetector.is_target_window_active,
    run_actions_once_eq_executeList]

/-- C10: for every `WindowDetector`, regardless of the
`target_window_titles` and `check_interval` supplied at construction,
`is_target_window_active()` returns `True`; consequently `run_once` and
periodic workers are never suspended by window gating (a run is plain
sequential execution of its action list) and the configured title list
has no effect on execution. -/
theorem claim10_window_gating_disabled (t1 t2 : Option (List String))
    (c1 c2 : ℚ) (dry : Bool) (fuel : Nat) (interval : ℚ)
    (acts : List Action) (s : ExecState) :
    (WindowDetector.make t1 c1).is_target_window_active = true ∧
    run_actions_once dry fuel (WindowDetector.make t1 c1) acts s =
      executeList dry fuel acts s ∧
    run_actions_once dry fuel (WindowDetector.make t1 c1) acts s =
      run_actions_once dry fuel (WindowDetector.make t2 c2) acts s ∧
    periodic_worker_iter dry fuel (WindowDetector.make t1 c1) interval
        acts s =
      periodic_worker_iter dry fuel (WindowDetector.make t2 c2) interval
        acts s := by
  refine ⟨rfl, run_actions_once_eq_executeList .., ?_, ?_⟩
  · rw [run_actions_once_eq_executeList, run_actions_once_eq_executeList]
  · rw [periodic_worker_iter_eq, periodic_worker_iter_eq]

/-- C6: the per-digit numpad aliases.  The `numpad<d>` names resolve to
the explicit virtual key codes `96 + d`, but the `num<d>` names hit the
`simple` table first — whose entries are annotated "These need to be
fixed" in the source — and come back as the num-lock key instead of the
per-digit code the claim (and the spec) require.  This evaluates the code
at every digit, exhibiting the defect. -/
theorem claim6_numpad_digit_aliases :
    (∀ d : Fin 10, parse_key ("numpad" ++ toString d.val) =
      .vk (96 + d.val)) ∧
    (∀ d : Fin 10, parse_key ("num" ++ toString d.val) =
      .special "num_lock") := by
  decide

/-- C4: the trailing `delay` sleep is dropped in executing mode.  For the
action `{"type": "superwait", "seconds": 3, "delay": 5}` the executing
run consumes the `uniform(1.0, 1.1)` draw for the delay (the tape entry
`2` disappears) yet emits only the superwait sleep — no trailing sleep —
while the dry run prints both the superwait line and the delay line.
The claim (and the spec) say executing mode sleeps
`delay * uniform(1.0, 1.1)` after the action. -/
theorem claim4_trailing_delay_not_slept :
    executeAction false 1
      (.mk (some "superwait") none none none none none none none none
        none none (some 3) none (some 5) [])
      ⟨[], [2], (0, 0), []⟩
      = .ok ⟨[], [], (0, 0), [.sleep 3]⟩ ∧
    executeAction true 1
      (.mk (some "superwait") none none none none none none none none
        none none (some 3) none (some 5) [])
      ⟨[], [2], (0, 0), []⟩
      = .ok ⟨[], [], (0, 0), [.logLine "superwait", .logLine "delay"]⟩ := by
  constructor <;>
    · simp only [executeAction, executeBody, check_chance, Action.chance?]
      decide

/-- C5: the "human reaction" pre-delay before a key dispatch is drawn but
never slept in executing mode.  For `{"type": "key", "action": "press",
"key": "a"}` the first `uniform(0.05, 0.09)` draw (the tape entry `7`) is
consumed, yet the first emitted event is the key press itself — no sleep
precedes it; the only sleep is the key-hold time (the second draw, `2`).
The claim (and the spec) say a pre-delay sleep of `uniform(0.05, 0.09)`
seconds is performed before the key events. -/
theorem claim5_key_pre_delay_not_slept :
    executeAction false 1
      (.mk (some "key") (some "press") (some "a") none none none none
        none none none none none none none [])
      ⟨[], [7, 2], (0, 0), []⟩
      = .ok ⟨[], [], (0, 0),
          [.kbPress (.ch 'a'), .sleep 2, .kbRelease (.ch 'a')]⟩ := by
  simp only [executeAction, executeBody, check_chance, Action.chance?]
  decide

/-- C2: `execute_action` applies the probabilistic gate before dispatch:
with `chance` absent the action always executes (the run is exactly the
gated body); with `chance ≤ 0` it never executes (state unchanged except
for the dry-run skip line); with `chance ≥ 100` it always executes;
otherwise exactly one integer draw (uniform over `[1, 100]`) is consumed
and the body runs precisely when the draw is `≤ chance`. -/
theorem claim2_chance_gate (dry : Bool) (fuel : Nat) (a : Action)
    (s : ExecState) :
    (a.chance? = none →
      executeAction dry fuel a s = executeBody dry fuel a s) ∧
    (∀ c : Int, a.chance? = some c → c ≤ 0 →
      executeAction dry fuel a s = .ok (skipState dry s)) ∧
    (∀ c : Int, a.chance? = some c → 100 ≤ c →
      executeAction dry fuel a s = executeBody dry fuel a s) ∧
    (∀ c : Int, a.chance? = some c → 0 < c → c < 100 →
      executeAction dry fuel a s =
        (if s.tapeInts.headD 0 ≤ c
         then executeBody dry fuel a (consumeInt s)
         else .ok (skipState dry (consumeInt s)))) := by
  refine ⟨?_, ?_, ?_, ?_⟩
  · intro h
    rw [executeAction, h]
    rfl
  · intro c h hc
    rw [executeAction, h]
    simp [check_chance.eq_def, hc, skipState]
  · intro c h hc
    rw [executeAction, h]
    have h1 : ¬c ≤ 0 := by omega
    simp [check_chance.eq_def, h1, hc]
  · intro c h h0 h100
    rw [executeAction, h]
    have h1 : ¬c ≤ 0 := by omega
    have h2 : ¬100 ≤ c := by omega
    simp only [check_chance.eq_def, h1, if_false, h2, nextInt]
    by_cases hd : s.tapeInts.head?.getD 0 ≤ c
    · simp [List.headD_eq_head?_getD, hd, consumeInt]
    · simp [List.headD_eq_head?_getD, hd, skipState, consumeInt]

/-- Witness for C2 at a concrete input: a wait action with `chance = 50`
and a gate draw of 50 takes the in-range branch of the gate. -/
theorem claim2_chance_gate_witness :
    executeAction false 1
      (.mk (some "wait") none none none none none none none (some 50)
        none none (some 1) none none [])
      ⟨[50], [1], (0, 0), []⟩ =
      (if [(50 : Int)].headD 0 ≤ 50
       then executeBody false 1
         (.mk (some "wait") none none none none none none none (some 50)
           none none (some 1) none none [])
         (consumeInt ⟨[50], [1], (0, 0), []⟩)
       else .ok (skipState false (consumeInt ⟨[50], [1], (0, 0), []⟩))) :=
  (claim2_chance_gate false 1
    (.mk (some "wait") none none none none none none none (some 50)
      none none (some 1) none none [])
    ⟨[50], [1], (0, 0), []⟩).2.2.2 50 rfl (by decide) (by decide)

/-- C1: `start_repeating` fails with `InvalidSequenceShape` on a bare-list
sequence, with `InvalidInterval` when the object form's `every` is
missing or non-positive, and with `AlreadyRunning` when a periodic task
for the name is live; each failure leaves the runner unchanged (so the
list-shape failure executes nothing), and after a failed duplicate call
exactly one live task for the name remains with the task dict
untouched.  `hnd` records that `_tasks` is a Python dict: its keys are
unique. -/
theorem claim1_start_repeating_failures (st : RunnerState) (name : String)
    (hnd : (st.tasks.map Prod.fst).Nodup) :
    (∀ xs, List.lookup name st.data = some (.jlist xs) →
      start_repeating st name = .error .invalidSequenceShape ∧
      start_repeating_state st name = st) ∧
    (∀ entries, List.lookup name st.data = some (.jobj entries) →
      (List.lookup "every" entries = none ∨
        ∃ q : ℚ, List.lookup "every" entries = some (.jnum q) ∧ q ≤ 0) →
      start_repeating st name = .error .invalidInterval ∧
      start_repeating_state st name = st) ∧
    (∀ entries (q : ℚ), List.lookup name st.data = some (.jobj entries) →
      List.lookup "every" entries = some (.jnum q) → 0 < q →
      name ∈ st.tasks.map Prod.fst →
      start_repeating st name = .error .alreadyRunning ∧
      start_repeating_state st name = st ∧
      (st.tasks.map Prod.fst).count name = 1) := by
  refine ⟨?_, ?_, ?_⟩
  · intro xs h
    constructor
    · simp [start_repeating, h]
    · simp [start_repeating_state, start_repeating, h]
  · rintro entries h (hev | ⟨q, hev, hq⟩)
    · constructor
      · simp [start_repeating, h, pyFloatField, hev]
      · simp [start_repeating_state, start_repeating, h, pyFloatField, hev]
    · constructor
      · simp [start_repeating, h, pyFloatField, hev, hq]
      · simp [start_repeating_state, start_repeating, h, pyFloatField,
          hev, hq]
  · intro entries q h hev hq hmem
    have hq1 : ¬q ≤ 0 := not_le.mpr hq
    have hany : st.tasks.any (fun p => p.1 == name) = true := by
      rw [List.any_eq_true]
      obtain ⟨p, hp, hp1⟩ := List.mem_map.mp hmem
      exact ⟨p, hp, by simp [hp1]⟩
    refine ⟨?_, ?_, ?_⟩
    · simp [start_repeating, h, pyFloatField, hev, hq1, hany]
    · simp [start_repeating_state, start_repeating, h, pyFloatField,
        hev, hq1, hany]
    · exact List.count_eq_one_of_mem hnd hmem

/-- Witness for C1 at a concrete runner state holding a bare-list
sequence, an object sequence with `every = 0`, and an object sequence
with `every = 12` whose task is already live. -/
theorem claim1_start_repeating_failures_witness :
    start_repeating
      ⟨[("a", .jlist []), ("b", .jobj [("every", .jnum 0)]),
        ("c", .jobj [("every", .jnum 12), ("actions", .jlist [])])],
       [("c", ⟨12, .jlist []⟩)]⟩ "c" = .error .alreadyRunning ∧
    start_repeating
      ⟨[("a", .jlist []), ("b", .jobj [("every", .jnum 0)]),
        ("c", .jobj [("every", .jnum 12), ("actions", .jlist [])])],
       [("c", ⟨12, .jlist []⟩)]⟩ "a" = .error .invalidSequenceShape ∧
    start_repeating
      ⟨[("a", .jlist []), ("b", .jobj [("every", .jnum 0)]),
        ("c", .jobj [("every", .jnum 12), ("actions", .jlist [])])],
       [("c", ⟨12, .jlist []⟩)]⟩ "b" = .error .invalidInterval := by
  refine ⟨?_, ?_, ?_⟩
  · exact ((claim1_start_repeating_failures
      ⟨[("a", .jlist []), ("b", .jobj [("every", .jnum 0)]),
        ("c", .jobj [("every", .jnum 12), ("actions", .jlist [])])],
       [("c", ⟨12, .jlist []⟩)]⟩ "c" (by simp)).2.2
      [("every", .jnum 12), ("actions", .jlist [])] 12 (by rfl) (by rfl)
      (by decide) (by decide)).1
  · exact ((claim1_start_repeating_failures
      ⟨[("a", .jlist []), ("b", .jobj [("every", .jnum 0)]),
        ("c", .jobj [("every", .jnum 12), ("actions", .jlist [])])],
       [("c", ⟨12, .jlist []⟩)]⟩ "a" (by simp)).1 [] (by rfl)).1
  · exact ((claim1_start_repeating_failures
      ⟨[("a", .jlist []), ("b", .jobj [("every", .jnum 0)]),
        ("c", .jobj [("every", .jnum 12), ("actions", .jlist [])])],
       [("c", ⟨12, .jlist []⟩)]⟩ "b" (by simp)).2.1
      [("every", .jnum 0)] (by rfl)
      (Or.inr ⟨0, by rfl, le_refl 0⟩)).1

/-- C7 counterexample: after a first document introduced `"a"`, loading a
second document that only defines `"b"` returns `["a", "b"]` — all names
in the store — while the names newly known from that document are just
`["b"]`.  The claim, as stated, is therefore false at this input. -/
theorem claim7_counterexample :
    load_file [] (.jobj [("a", .jnull)]) =
      .ok (["a"], [("a", JVal.jnull)]) ∧
    load_file [("a", JVal.jnull)] (.jobj [("b", .jnull)]) =
      .ok (["a", "b"], [("a", JVal.jnull), ("b", JVal.jnull)]) ∧
    (["a", "b"] : List String) ≠ ["b"] := by
  refine ⟨rfl, rfl, by decide⟩

/-- C7 amended: `load` merges the inner mapping when the document carries
a `"sequences"` mapping, merges the document's own entries when it is any
other mapping, fails with `UnsupportedFormat` for a non-mapping top
level, and the returned value is the list of **all** names known to the
store after the merge (what `list_sequences` reports). -/
theorem claim7_load_merge_amended (data : List (String × JVal))
    (payload : JVal) :
    (∀ entries inner, payload = .jobj entries →
      List.lookup "sequences" entries = some (.jobj inner) →
      load_file data payload =
        .ok (list_sequences (dictUpdate data inner),
             dictUpdate data inner)) ∧
    (∀ entries, payload = .jobj entries →
      (∀ inner, List.lookup "sequences" entries ≠ some (.jobj inner)) →
      load_file data payload =
        .ok (list_sequences (dictUpdate data entries),
             dictUpdate data entries)) ∧
    ((∀ entries, payload ≠ .jobj entries) →
      load_file data payload = .error .unsupportedFormat) := by
  refine ⟨?_, ?_, ?_⟩
  · rintro entries inner rfl hseq
    simp [load_file, hseq, list_sequences]
  · rintro entries rfl hseq
    rw [load_file]
    cases hs : List.lookup "sequences" entries with
    | none => simp [list_sequences]
    | some v =>
      cases v with
      | jobj inner => exact absurd hs (hseq inner)
      | jnull => simp [list_sequences]
      | jbool b => simp [list_sequences]
      | jnum q => simp [list_sequences]
      | jstr s => simp [list_sequences]
      | jlist xs => simp [list_sequences]
  · intro h
    cases payload with
    | jobj entries => exact absurd rfl (h entries)
    | jnull => rfl
    | jbool b => rfl
    | jnum q => rfl
    | jstr s => rfl
    | jlist xs => rfl

/-- Witness for C7 at concrete documents: one wrapped in a `"sequences"`
mapping, one plain mapping, and one non-mapping top level. -/
theorem claim7_load_merge_amended_witness :
    load_file [] (.jobj [("sequences", .jobj [("s1", .jlist [])])]) =
      .ok (list_sequences (dictUpdate [] [("s1", JVal.jlist [])]),
           dictUpdate [] [("s1", JVal.jlist [])]) ∧
    load_file [] (.jobj [("s2", .jlist [])]) =
      .ok (list_sequences (dictUpdate [] [("s2", JVal.jlist [])]),
           dictUpdate [] [("s2", JVal.jlist [])]) ∧
    load_file [] (.jlist []) = .error .unsupportedFormat := by
  refine ⟨?_, ?_, ?_⟩
  · exact (claim7_load_merge_amended [] _).1
      [("sequences", .jobj [("s1", .jlist [])])] [("s1", .jlist [])]
      rfl rfl
  · refine (claim7_load_merge_amended [] _).2.1 [("s2", .jlist [])] rfl ?_
    intro inner h
    rw [show List.lookup "sequences" [("s2", JVal.jlist [])] =
      (none : Option JVal) from rfl] at h
    exact Option.noConfusion h
  · exact (claim7_load_merge_amended [] _).2.2
      (fun entries h => JVal.noConfusion h)

/-- Helper: updating a dict with entries whose keys are fresh and
mutually distinct appends them in order. -/
theorem dictUpdate_of_disjoint (src : List (String × JVal)) :
    ∀ d, (src.map Prod.fst).Nodup →
    (∀ k ∈ src.map Prod.fst, k ∉ d.map Prod.fst) →
    dictUpdate d src = d ++ src := by
  induction src with
  | nil => intro d _ _; simp [dictUpdate]
  | cons p rest ih =>
    intro d hnd hdisj
    rw [List.map_cons, List.nodup_cons] at hnd
    have hk : p.1 ∉ d.map Prod.fst := hdisj p.1 (by simp)
    have hany : d.any (fun q => q.1 == p.1) = false := by
      rw [List.any_eq_false]
      rintro q hq
      simp only [beq_iff_eq]
      intro hq1
      exact hk (List.mem_map.mpr ⟨q, hq, hq1⟩)
    have step : dictInsert d p.1 p.2 = d ++ [p] := by
      simp [dictInsert, hany]
    have hrest : dictUpdate (d ++ [p]) rest = (d ++ [p]) ++ rest := by
      refine ih (d ++ [p]) hnd.2 ?_
      intro k hkrest
      simp only [List.map_append, List.mem_append, List.map_cons,
        List.mem_singleton, List.map_nil, List.mem_cons,
        List.not_mem_nil, or_false]
      rintro (hkd | hkp)
      · exact hdisj k (by simp [hkrest]) hkd
      · exact hnd.1 (hkp ▸ hkrest)
    calc dictUpdate d (p :: rest)
        = dictUpdate (dictInsert d p.1 p.2) rest := rfl
      _ = dictUpdate (d ++ [p]) rest := by rw [step]
      _ = (d ++ [p]) ++ rest := hrest
      _ = d ++ (p :: rest) := by simp

/-- Helper: in an association list with distinct keys, `lookup` finds
exactly the paired value of every member. -/
theorem lookup_eq_some_of_mem_nodup (l : List (String × JVal))
    (n : String) (v : JVal) (hnd : (l.map Prod.fst).Nodup)
    (hm : (n, v) ∈ l) : List.lookup n l = some v := by
  induction l with
  | nil => simp at hm
  | cons p rest ih =>
    simp only [List.map_cons, List.nodup_cons] at hnd
    rcases List.mem_cons.mp hm with h | h
    · rw [← h]
      simp [List.lookup]
    · have hne : n ≠ p.1 := by
        intro he
        exact hnd.1 (List.mem_map.mpr ⟨(n, v), h, by rw [he]⟩)
      have hbeq : (n == p.1) = false := beq_eq_false_iff_ne.mpr hne
      rw [List.lookup, hbeq]
      exact ih hnd.2 h

/-- Helper: `lookup` of a key that is not among an association list's
keys yields `none`. -/
theorem lookup_eq_none_of_not_mem (l : List (String × JVal)) (n : String)
    (h : n ∉ l.map Prod.fst) : List.lookup n l = none := by
  induction l with
  | nil => rfl
  | cons p rest ih =>
    simp only [List.map_cons, List.mem_cons, not_or] at h
    have hbeq : (n == p.1) = false := beq_eq_false_iff_ne.mpr h.1
    rw [List.lookup, hbeq]
    exact ih h.2

/-- C8: round trip.  For every well-formed document with distinct names
(`docEntries` extracts the entries the document defines, honoring the
optional `"sequences"` wrapper), loading it into a fresh store returns
exactly those names in first-appearance order, `list_sequences` lists
them in the same order, `get_sequence` returns a value structurally equal
to the corresponding entry of the input document, and `get_sequence` of
an absent name fails with `NotFound`. -/
theorem claim8_round_trip (payload : JVal)
    (entries : List (String × JVal))
    (hdoc : docEntries payload = some entries)
    (hnd : (entries.map Prod.fst).Nodup) :
    load_file [] payload = .ok (entries.map Prod.fst, entries) ∧
    list_sequences entries = entries.map Prod.fst ∧
    (∀ n v, (n, v) ∈ entries → get_sequence entries n = .ok v) ∧
    (∀ n, n ∉ entries.map Prod.fst →
      get_sequence entries n = .error .notFound) := by
  have hupd : dictUpdate [] entries = entries := by
    have := dictUpdate_of_disjoint entries [] hnd (by simp)
    simpa using this
  refine ⟨?_, rfl, ?_, ?_⟩
  · cases payload with
    | jobj pentries =>
      simp only [docEntries] at hdoc
      rw [load_file]
      cases hs : List.lookup "sequences" pentries with
      | none =>
        simp only [hs] at hdoc ⊢
        cases hdoc
        simp [hupd]
      | some v =>
        cases v with
        | jobj inner =>
          simp only [hs] at hdoc ⊢
          cases hdoc
          simp [hupd]
        | jnull => simp only [hs] at hdoc ⊢; cases hdoc; simp [hupd]
        | jbool b => simp only [hs] at hdoc ⊢; cases hdoc; simp [hupd]
        | jnum q => simp only [hs] at hdoc ⊢; cases hdoc; simp [hupd]
        | jstr s => simp only [hs] at hdoc ⊢; cases hdoc; simp [hupd]
        | jlist xs => simp only [hs] at hdoc ⊢; cases hdoc; simp [hupd]
    | jnull => simp [docEntries] at hdoc
    | jbool b => simp [docEntries] at hdoc
    | jnum q => simp [docEntries] at hdoc
    | jstr s => simp [docEntries] at hdoc
    | jlist xs => simp [docEntries] at hdoc
  · intro n v hm
    rw [get_sequence, lookup_eq_some_of_mem_nodup entries n v hnd hm]
  · intro n hm
    rw [get_sequence, lookup_eq_none_of_not_mem entries n hm]

/-- Witness for C8 at a concrete wrapped document defining two
sequences. -/
theorem claim8_round_trip_witness :
    load_file []
      (.jobj [("sequences", .jobj
        [("s1", .jlist []), ("p", .jobj [("every", .jnum 10)])])]) =
      .ok (["s1", "p"],
        [("s1", JVal.jlist []),
         ("p", JVal.jobj [("every", JVal.jnum 10)])]) ∧
    get_sequence
      [("s1", JVal.jlist []), ("p", JVal.jobj [("every", JVal.jnum 10)])]
      "p" = .ok (JVal.jobj [("every", JVal.jnum 10)]) ∧
    get_sequence
      [("s1", JVal.jlist []), ("p", JVal.jobj [("every", JVal.jnum 10)])]
      "zz" = .error .notFound := by
  have h := claim8_round_trip
    (.jobj [("sequences", .jobj
      [("s1", .jlist []), ("p", .jobj [("every", .jnum 10)])])])
    [("s1", JVal.jlist []), ("p", JVal.jobj [("every", JVal.jnum 10)])]
    rfl (by simp)
  exact ⟨h.1, h.2.2.1 "p" _ (by simp), h.2.2.2 "zz" (by simp)⟩

/-- C9 counterexample: a click whose target `(100, 100)` equals the
current cursor position still performs a movement phase when the random
per-axis offsets are not both zero.  With offset draws `(1, 0)` the
perturbed target is `(101, 100) ≠ (100, 100)`, so the code emits 11
interpolation cursor moves (the minimum 10 steps plus the final sample)
— not the zero interpolation steps the claim states — before the single
click. -/
theorem claim9_counterexample :
    (executeMouse false
      (.mk (some "mouse") none none none (some 100) (some 100) none none
        none none (some 2) none none none [])
      ⟨[1, 0, 5, -3], List.replicate 11 1, (100, 100), []⟩).map
        (fun st => st.trace.countP (fun e => isMoveEv e)) = .ok 11 ∧
    (executeMouse false
      (.mk (some "mouse") none none none (some 100) (some 100) none none
        none none (some 2) none none none [])
      ⟨[1, 0, 5, -3], List.replicate 11 1, (100, 100), []⟩).map
        (fun st => st.trace.countP (fun e => isPressEv e)) = .ok 1 := by
  constructor <;> decide

/-- C9 amended: the movement phase is skipped exactly when the
offset-perturbed target equals the current cursor position: when
`(x + δx, y + δy)` (with `δx, δy` the two `randint(-2, 2)` draws) equals
the cursor position, a single-click action emits no cursor move and no
settle sleep — only the click press, hold sleep and release — after
consuming just the two offset draws. -/
theorem claim9_no_move_when_target_is_cursor (a : Action) (s : ExecState)
    (x y : Int) (d : ℚ)
    (hx : a.x? = some x) (hy : a.y? = some y)
    (hact : a.action? = none ∨ a.action? = some "click")
    (hclicks : a.clicks? = none) (hdur : a.duration? = some d)
    (htx : x + s.tapeInts.headD 0 = s.mousePos.1)
    (hty : y + s.tapeInts.tail.headD 0 = s.mousePos.2) :
    executeMouse false a s =
      .ok (push (.msRelease (mouseBtn a))
            (push (.sleep d)
              (push (.msPress (mouseBtn a))
                { s with tapeInts := s.tapeInts.tail.tail }))) := by
  have htgt : ((nextInt (nextInt s).2).2.mousePos ≠
      (x + (nextInt s).1, y + (nextInt (nextInt s).2).1)) = False := by
    simp only [nextInt, eq_iff_iff, iff_false, not_not]
    have : s.mousePos = (s.mousePos.1, s.mousePos.2) := rfl
    rw [this, ← htx, ← hty]
  have hclick : pyLower ((a.action?).getD "click") = "click" := by
    rcases hact with h | h <;> rw [h] <;> rfl
  rw [executeMouse]
  simp only [hclick, hx, hy, hclicks, hdur, htgt, if_true, if_false,
    reduceIte, Option.getD_some, Option.getD_none]
  simp only [nextInt, clickLoop, Int.toNat_one]
  rfl

/-- Witness for C9 at a concrete state: cursor at `(100, 100)`, click
target `(100, 100)`, both offset draws zero. -/
theorem claim9_no_move_when_target_is_cursor_witness :
    executeMouse false
      (.mk (some "mouse") none none none (some 100) (some 100) none none
        none none (some 2) none none none [])
      ⟨[0, 0], [], (100, 100), []⟩ =
      .ok (push (.msRelease (mouseBtn
            (.mk (some "mouse") none none none (some 100) (some 100) none
              none none none (some 2) none none none [])))
            (push (.sleep 2)
              (push (.msPress (mouseBtn
                (.mk (some "mouse") none none none (some 100) (some 100)
                  none none none none (some 2) none none none [])))
                { tapeInts := ([0, 0] : List Int).tail.tail,
                  tapeUnifs := [], mousePos := (100, 100),
                  trace := [] }))) :=
  claim9_no_move_when_target_is_cursor
    (.mk (some "mouse") none none none (some 100) (some 100) none none
      none none (some 2) none none none [])
    ⟨[0, 0], [], (100, 100), []⟩ 100 100 2 rfl rfl (Or.inl rfl) rfl rfl
    (by decide) (by decide)

/-- Helper: with a positive `every` and a given `count`, the repeat loop
is exactly `count` blocks of "run the inner list, then sleep the
jittered interval". -/
theorem repeatCount_eq_iterBlock (dry : Bool) (fuel : Nat)
    (inner : List Action) (every : ℚ) (hev : 0 < every) :
    ∀ (k : Nat) (s : ExecState),
      repeatCount dry fuel inner every k s =
        iterBlock dry fuel inner every k s := by
  intro k
  induction k with
  | zero => intro s; rw [repeatCount, iterBlock]
  | succ k ih =>
    intro s
    rw [repeatCount, iterBlock]
    cases hres : executeList dry fuel inner s with
    | error e => rfl
    | ok s1 =>
      have hev' : ¬every ≤ 0 := not_le.mpr hev
      simp only [hev', if_false, reduceIte]
      exact ih _

/-- Helper: with a non-positive `every`, the loop breaks after the first
pass — the inner list runs exactly once when `count` is absent or at
least 1, and not at all when the iteration count is 0. -/
theorem repeat_nonpos_every (dry : Bool) (fuel : Nat)
    (inner : List Action) (every : ℚ) (s : ExecState)
    (hev : every ≤ 0) :
    (∀ lb, repeatNone dry fuel inner every lb s =
      executeList dry fuel inner s) ∧
    (∀ k : Nat, 1 ≤ k →
      repeatCount dry fuel inner every k s =
        executeList dry fuel inner s) ∧
    repeatCount dry fuel inner every 0 s = .ok s := by
  refine ⟨?_, ?_, ?_⟩
  · intro lb
    cases lb with
    | zero =>
      rw [repeatNone]
      cases hres : executeList dry fuel inner s with
      | error e => rfl
      | ok s1 => simp [hev]
    | succ l =>
      rw [repeatNone]
      cases hres : executeList dry fuel inner s with
      | error e => rfl
      | ok s1 => simp [hev]
  · intro k hk
    obtain ⟨k1, rfl⟩ : ∃ k1, k = k1 + 1 := ⟨k - 1, by omega⟩
    rw [repeatCount]
    cases hres : executeList dry fuel inner s with
    | error e => rfl
    | ok s1 => simp [hev]
  · rw [repeatCount]

/-- Helper: with a positive `every` and no `count`, the loop never
finishes normally — for every loop budget the result is an error (the
`fuelOut` marker, or an error from the loop body), never success. -/
theorem repeatNone_never_ok (dry : Bool) (fuel : Nat)
    (inner : List Action) (every : ℚ) (hev : 0 < every) :
    ∀ (lb : Nat) (s s2 : ExecState),
      repeatNone dry fuel inner every lb s ≠ .ok s2 := by
  have hev' : ¬every ≤ 0 := not_le.mpr hev
  intro lb
  induction lb with
  | zero =>
    intro s s2
    rw [repeatNone]
    cases hres : executeList dry fuel inner s with
    | error e => simp
    | ok s1 => simp [hev']
  | succ l ih =>
    intro s s2
    rw [repeatNone]
    cases hres : executeList dry fuel inner s with
    | error e => simp
    | ok s1 =>
      simp only [hev', if_false, reduceIte]
      exact ih _ s2

/-- C3 counterexample: for the repeat action
`{"type": "repeat", "count": 0, "every": 0, "actions": [superwait 7]}`
the loop body never runs (`while 0 < 0` fails immediately), so the inner
list is executed zero times — not the "exactly once regardless of
`count`" the claim states for `every ≤ 0` (running it once would emit the
7-second sleep). -/
theorem claim3_counterexample :
    execute_repeat false 5
      (.mk (some "repeat") none none none none none none (some 0) none
        none none none (some 0) none
        [.mk (some "superwait") none none none none none none none none
          none none (some 7) none none []])
      ⟨[], [], (0, 0), []⟩ = .ok ⟨[], [], (0, 0), []⟩ ∧
    executeList false 5
      [.mk (some "superwait") none none none none none none none none
        none none (some 7) none none []]
      ⟨[], [], (0, 0), []⟩ = .ok ⟨[], [], (0, 0), [.sleep 7]⟩ ∧
    ([] : List Event) ≠ [.sleep 7] := by
  refine ⟨?_, ?_, by decide⟩
  · rw [execute_repeat]
    simp [Action.count?, Action.actions, Action.every?, repeatCount]
  · simp only [executeList, executeAction, executeBody, check_chance,
      Action.chance?]
    decide

/-- C3 amended: a repeat action executes its nested list synchronously
exactly `count.toNat` times when `count` is given and `every > 0`, with a
sleep of `every * uniform(0.9, 1.1)` after each pass (`iterBlock` is that
spec-side loop); with `count` absent and `every > 0` it loops
indefinitely (no amount of fuel lets it finish normally); and when
`every ≤ 0` the inner list runs exactly once if `count` is absent or at
least 1, and zero times if `count ≤ 0`. -/
theorem claim3_repeat_semantics (dry : Bool) (fuel : Nat) (a : Action)
    (s : ExecState) :
    (∀ n : Int, a.count? = some n → 0 < (a.every?).getD 0 →
      execute_repeat dry fuel a s =
        iterBlock dry fuel a.actions ((a.every?).getD 0) n.toNat s) ∧
    ((a.every?).getD 0 ≤ 0 →
      (a.count? = none ∨ ∃ n : Int, a.count? = some n ∧ 1 ≤ n) →
      execute_repeat dry fuel a s = executeList dry fuel a.actions s) ∧
    (∀ n : Int, a.count? = some n → n ≤ 0 → (a.every?).getD 0 ≤ 0 →
      execute_repeat dry fuel a s = .ok s) ∧
    (a.count? = none → 0 < (a.every?).getD 0 →
      ∀ s2, execute_repeat dry fuel a s ≠ .ok s2) := by
  refine ⟨?_, ?_, ?_, ?_⟩
  · intro n hc hev
    rw [execute_repeat]
    simp only [hc]
    exact repeatCount_eq_iterBlock dry fuel a.actions _ hev n.toNat s
  · rintro hev (hc | ⟨n, hc, hn⟩)
    · rw [execute_repeat]
      simp only [hc]
      exact (repeat_nonpos_every dry fuel a.actions _ s hev).1 fuel
    · rw [execute_repeat]
      simp only [hc]
      exact (repeat_nonpos_every dry fuel a.actions _ s hev).2.1
        n.toNat (by omega)
  · intro n hc hn hev
    rw [execute_repeat]
    simp only [hc]
    have h0 : n.toNat = 0 := by omega
    rw [h0]
    exact (repeat_nonpos_every dry fuel a.actions _ s hev).2.2
  · intro hc hev s2
    rw [execute_repeat]
    simp only [hc]
    exact repeatNone_never_ok dry fuel a.actions _ hev fuel s s2

/-- Witness for C3 at a concrete repeat action with `count = 2` and
`every = 4`. -/
theorem claim3_repeat_semantics_witness :
    execute_repeat false 3
      (.mk (some "repeat") none none none none none none (some 2) none
        none none none (some 4) none
        [.mk (some "superwait") none none none none none none none none
          none none (some 7) none none []])
      ⟨[], [1, 1], (0, 0), []⟩ =
      iterBlock false 3
        (Action.mk (some "repeat") none none none none none none (some 2)
          none none none none (some 4) none
          [.mk (some "superwait") none none none none none none none none
            none none (some 7) none none []]).actions
        ((Action.mk (some "repeat") none none none none none none (some 2)
          none none none none (some 4) none
          [.mk (some "superwait") none none none none none none none none
            none none (some 7) none none []]).every?.getD 0)
        (Int.toNat 2) ⟨[], [1, 1], (0, 0), []⟩ :=
  (claim3_repeat_semantics false 3
    (.mk (some "repeat") none none none none none none (some 2) none
      none none none (some 4) none
      [.mk (some "superwait") none none none none none none none none
        none none (some 7) none none []])
    ⟨[], [1, 1], (0, 0), []⟩).1 2 rfl (by decide)

end WowAuto
